import Mathlib

/-!
Shallow embedding of the Arsenal teamserver core API
(`teamserver/api/auth.py` and `teamserver/api/action.py`) and proofs of the
specified properties.

Conventions of the embedding:
* Fallible Python code is embedded as functions into `Except ApiError`;
  raising an exception is returning `.error e`, and an error return means the
  persistent store is left unchanged (the caller keeps its old store value).
* The persistent store is passed explicitly: each mutating operation takes the
  relevant record list and returns the updated list on success.
* External collaborators that are out of scope in the source (password hashing,
  argon2, base64, the action-string parser, the auth-context resolver) are
  passed in as function parameters, so theorems hold for every choice of them.
* Python `min(..., key=...)` on an empty sequence raises `ValueError`; this is
  embedded faithfully (`pyMinByInterval`), as is the `dict.get` call with an
  unhashable `list` key in `create_role`, which raises `TypeError` (`pyGet`).
-/

namespace Arsenal

/-- The structured failures surfaced by the API layer. `valueError` and
`typeError` embed raw Python exceptions that escape the typed taxonomy. -/
inductive ApiError where
  | permissionDenied (msg : String)
  | cannotBindAction (target_name : String)
  | duplicateKey
  | notFound
  | authenticationFailed
  | noActiveSession
  | malformedAction
  | keyError (key : String)
  | valueError (msg : String)
  | typeError (msg : String)
  deriving Repr, DecidableEq

/-- A delivery session of a target: status string and polling interval
(`Target/Session` directory, referenced read-only by the core). -/
structure Session where
  session_id : String
  status : String
  interval : Nat
  deriving Repr, DecidableEq

/-- A remote target aggregating its sessions. -/
structure Target where
  name : String
  sessions : List Session
  deriving Repr, DecidableEq

/-- Modelled from the spec: `parse(action_string) -> {action_type, ...}`; the
auxiliary extra fields of the parser output are out of the spec's detail, so
only `action_type` is carried. -/
structure ParsedAction where
  action_type : String
  deriving Repr, DecidableEq

/-- Modelled from the spec: an action's status is derived from whether it has
been cancelled or retrieved; `queued` is the initial state. -/
inductive ActionStatus where
  | queued
  | retrieved
  | cancelled
  deriving Repr, DecidableEq

/-- The Action record as built by `create_action` (action.py lines 59-67),
plus the two lifecycle flags the status is derived from. -/
structure Action where
  action_id : String
  target_name : String
  action_string : String
  action_type : String
  bound_session_id : Option String
  queue_time : Nat
  owner : String
  cancelled : Bool := false
  retrieved : Bool := false
  deriving Repr, DecidableEq

/-- Modelled from the spec: status derivation `Queued → Retrieved | Cancelled`;
a fresh record (both flags false) is `queued`. -/
def Action.status (a : Action) : ActionStatus :=
  if a.cancelled then .cancelled
  else if a.retrieved then .retrieved
  else .queued

/-- A stored user record (auth.py `User(username=..., password=...,
administrator=...)`). -/
structure User where
  username : String
  password : String
  administrator : Bool
  deriving Repr, DecidableEq

/-- Modelled from the spec: the result triple of `get_context(params)` — the
resolved identity, its effective permission set (`allowed_methods`), and the
is-administrator flag (AuthContext Resolver, spec section 4.2; the resolver
itself lives in the `utils` module, outside the given sources). -/
structure AuthCtx where
  user : User
  allowed_methods : List String
  administrator : Bool
  deriving Repr, DecidableEq

/-- A stored API key record (auth.py lines 81-85): `key` holds the salted hash,
never the raw secret. -/
structure APIKey where
  key : String
  owner : String
  allowed_api_calls : List String
  deriving Repr, DecidableEq

/-- A stored role record (auth.py lines 108-112). -/
structure Role where
  name : String
  allowed_api_calls : List String
  users : List String
  deriving Repr, DecidableEq

/-- Modelled from the spec: `get_target_by_name(name) -> Target | absent`
(store lookup used by `Target.get_by_name`). -/
def getTargetByName : List Target → String → Option Target
  | [], _ => none
  | t :: ts, n => if t.name = n then some t else getTargetByName ts n

/-- Modelled from the spec: `get-by-id` store lookup used by
`Action.get_by_id`. -/
def getActionById : List Action → String → Option Action
  | [], _ => none
  | a :: as_, i => if a.action_id = i then some a else getActionById as_ i

/-- Embedding of Python `min(sessions, key=lambda x: x.interval)`: on an empty
sequence it raises `ValueError`; otherwise it returns the first element whose
key is minimal (later elements replace the best only on strictly smaller key). -/
def pyMinByInterval : List Session → Except ApiError Session
  | [] => .error (.valueError "min arg is an empty sequence")
  | s :: rest =>
      .ok (rest.foldl (fun best x => if x.interval < best.interval then x else best) s)

/-- The parameter bag of `create_action` (action.py docstring lines 19-27). -/
structure CreateActionParams where
  target_name : String
  action_string : String
  bound_session_id : Option String := none
  action_id : Option String := none
  quick : Bool := false
  deriving Repr, DecidableEq

/-- Embedding of `create_action` (action.py lines 13-79) with `commit=True`.
`parse` embeds `Action.parse_action_string`; `ctx` is the resolved auth context
(`none` when `get_context` raises `KeyError`, giving the `No owner` fallback);
`now` is `time.time()`; `fresh_uuid` is the `str(uuid4())` default action id.
`SESSION_STATUSES.get('active', 'active')` is the string `"active"`.
The source guard `if bound_session and isinstance(bound_session, Session)` is
vacuously true whenever `min` returns, so the quick branch always overrides
`bound_session_id`. `save(force_insert=True)` is insert-if-absent on
`action_id`. Returns the new action list and the response's `action_id`. -/
def create_action (parse : String → Except ApiError ParsedAction)
    (ctx : Option AuthCtx) (now : Nat) (fresh_uuid : String)
    (params : CreateActionParams)
    (targets : List Target) (actions : List Action) :
    Except ApiError (List Action × String) :=
  let username := match ctx with
    | some c => c.user.username
    | none => "No owner"
  match getTargetByName targets params.target_name with
  | none => .error (.cannotBindAction params.target_name)
  | some target =>
    match parse params.action_string with
    | .error e => .error e
    | .ok parsed =>
      let quickBound : Except ApiError (Option String) :=
        if params.quick then
          match pyMinByInterval (target.sessions.filter
              (fun s => decide (s.status = "active"))) with
          | .error e => .error e
          | .ok bound_session => .ok (some bound_session.session_id)
        else .ok params.bound_session_id
      match quickBound with
      | .error e => .error e
      | .ok bound_session_id =>
        let action : Action := {
          action_id := params.action_id.getD fresh_uuid
          target_name := params.target_name
          action_string := params.action_string
          action_type := parsed.action_type
          bound_session_id := bound_session_id
          queue_time := now
          owner := username }
        if ∃ a ∈ actions, a.action_id = action.action_id then
          .error .duplicateKey
        else
          .ok (actions ++ [action], action.action_id)

/-- Embedding of `get_action` (action.py lines 81-92): look the action up by
`action_id`; absent id is a `NotFound`-class failure. -/
def get_action (actions : List Action) (action_id : String) :
    Except ApiError Action :=
  match getActionById actions action_id with
  | none => .error .notFound
  | some a => .ok a

/-- Embedding of `create_user` (auth.py lines 14-35). `hash` embeds
`User.hash_password` (external one-way hash primitive, out of scope).
`save(force_insert=True)` is insert-if-absent on `username`. -/
def create_user (hash : String → String) (username password : String)
    (store : List User) : Except ApiError (List User × Unit) :=
  let password_hash := hash password
  let user : User := { username := username, password := password_hash,
                       administrator := false }
  if ∃ u ∈ store, u.username = username then .error .duplicateKey
  else .ok (store ++ [user], ())

/-- Embedding of `create_api_key` (auth.py lines 37-88). `argon2` and `b64`
embed the external `argon2_hash` and `b64encode` primitives; `salt` is
`API_KEY_SALT`; `ctx` is the `get_context` result; `allowed_api_calls` is the
optional request parameter (`none` when omitted; Python truthiness makes
`some []` behave like `none`); `original_key` is the five concatenated fresh
UUIDs. On success the raw secret is the returned payload string, and the
stored record's `key` field is `API_KEY_SALT + "$" + b64(argon2(secret,
salt))`. -/
def create_api_key (argon2 : String → String → String) (b64 : String → String)
    (salt : String) (ctx : AuthCtx) (allowed_api_calls : Option (List String))
    (original_key : String) (store : List APIKey) :
    Except ApiError (List APIKey × String) :=
  let owner := ctx.user.username
  let allowed_methods := ctx.allowed_methods
  let requested := allowed_api_calls.getD []
  let finalize : List String → Except ApiError (List APIKey × String) :=
    fun calls =>
      let record : APIKey := {
        key := salt ++ "$" ++ b64 (argon2 original_key salt)
        owner := owner
        allowed_api_calls := calls }
      if ∃ k ∈ store, k.key = record.key then .error .duplicateKey
      else .ok (store ++ [record], original_key)
  if requested = [] then
    finalize allowed_methods
  else if ∃ m ∈ requested, m ∉ allowed_methods then
    if "*" ∉ allowed_methods then
      .error (.permissionDenied
        "Cannot create API key with more permissions than key owner.")
    else finalize requested
  else finalize requested

/-- A Python value as it appears in the `create_role` parameter bag. -/
inductive PyVal where
  | str (s : String)
  | strList (l : List String)
  deriving Repr, DecidableEq

/-- A Python value used as a dictionary key: either a string or a `list`
(the latter is unhashable). -/
inductive PyKey where
  | str (s : String)
  | list (l : List String)
  deriving Repr, DecidableEq

/-- Embedding of Python `params[k]`: `KeyError` when the key is absent. -/
def pyIndex (params : List (String × PyVal)) (k : String) :
    Except ApiError PyVal :=
  match params.lookup k with
  | none => .error (.keyError k)
  | some v => .ok v

/-- Embedding of Python `params.get(k)`: hashing a `list` key raises
`TypeError: unhashable type: list`; a string key returns the value or `None`. -/
def pyGet (params : List (String × PyVal)) : PyKey →
    Except ApiError (Option PyVal)
  | .list _ => .error (.typeError "unhashable type: list")
  | .str s => .ok (params.lookup s)

/-- Python truthiness of an optional value: `None`, `''`, and `[]` are falsy. -/
def pyTruthy : Option PyVal → Bool
  | none => false
  | some (.str s) => !s.isEmpty
  | some (.strList l) => !l.isEmpty

/-- Embedding of `create_role` (auth.py lines 90-115). The source initializes
`users = []` and then evaluates `params.get(users)` — a dictionary lookup
keyed by the list value `users`, which is unhashable, so every call raises
`TypeError` before any `Role` is built. The dead code past that point is kept
for fidelity. `resolveUser` embeds `User.get_user(u).username`. -/
def create_role (resolveUser : String → Except ApiError String)
    (params : List (String × PyVal)) (store : List Role) :
    Except ApiError (List Role × Unit) :=
  match pyIndex params "name" with
  | .error e => .error e
  | .ok nameVal =>
    match pyIndex params "allowed_api_calls" with
    | .error e => .error e
    | .ok callsVal =>
      let users : List String := []
      match pyGet params (.list users) with
      | .error e => .error e
      | .ok cond =>
        let usersRes : Except ApiError (List String) :=
          if pyTruthy cond then
            match pyIndex params "users" with
            | .error e => .error e
            | .ok (.strList us) => us.mapM resolveUser
            | .ok (.str _) => .error (.typeError "expected a list of users")
          else .ok users
        match usersRes with
        | .error e => .error e
        | .ok users =>
          match nameVal, callsVal with
          | .str name, .strList allowed =>
            let role : Role := { name := name, allowed_api_calls := allowed,
                                 users := users }
            if ∃ r ∈ store, r.name = role.name then .error .duplicateKey
            else .ok (store ++ [role], ())
          | _, _ => .error (.typeError "bad parameter types")

/-- Modelled from the spec: `verify(plaintext, hash)` of the external
credential primitive — the plaintext verifies against a stored hash iff
hashing it reproduces the hash. -/
def verifyPassword (hash : String → String) (plaintext stored : String) :
    Bool :=
  hash plaintext = stored

/-- Modelled from the spec: `User.update_password` (models module, outside
the given sources) — the two-step mutation: verify the old password, then set
the new one; a non-verifying old password is `AuthenticationFailed`. -/
def update_password (hash : String → String) (user : User)
    (current_password new_password : String) : Except ApiError User :=
  if verifyPassword hash current_password user.password then
    .ok { user with password := hash new_password }
  else .error .authenticationFailed

/-- Embedding of `update_user_password` (auth.py lines 117-138): when the
context is administrator and the resolved (possibly impersonated) user is not
itself an administrator, the password is set to the hash of `new_password`
with no check of `current_password`; otherwise the two-step
`update_password` runs. Returns the saved user record. -/
def update_user_password (hash : String → String) (ctx : AuthCtx)
    (current_password new_password : String) : Except ApiError User :=
  if ctx.administrator ∧ ¬ ctx.user.administrator then
    .ok { ctx.user with password := hash new_password }
  else
    update_password hash ctx.user current_password new_password

/-- Store lookup of an API key record by its stored `key` field. -/
def findAPIKeyByKey : List APIKey → String → Option APIKey
  | [], _ => none
  | k :: ks, s => if k.key = s then some k else findAPIKeyByKey ks s

/-- Modelled from the spec: `APIKey.get_key(raw)` (models module, outside the
given sources) — only the salted hash of the presented raw key is ever
compared against the stored `key` fields; `stored_of` maps the raw secret to
its stored hash form. -/
def get_key (stored_of : String → String) (store : List APIKey)
    (raw : String) : Option APIKey :=
  findAPIKeyByKey store (stored_of raw)

/-- Embedding of `revoke_api_key` (auth.py lines 301-321): a caller that is
neither the key's owner nor an administrator gets `PermissionDenied`;
otherwise the record is removed (`api_key.remove()`, keyed by the stored
`key` field). -/
def revoke_api_key (stored_of : String → String) (ctx : AuthCtx)
    (raw : String) (store : List APIKey) :
    Except ApiError (List APIKey × Unit) :=
  match get_key stored_of store raw with
  | none => .error .notFound
  | some api_key =>
    if api_key.owner ≠ ctx.user.username ∧ ¬ ctx.administrator then
      .error (.permissionDenied
        "Cannot revoke an API key you do not own.        Please authenticate as the owner of the key to revoke it.")
    else
      .ok (store.filter (fun k => decide (¬ k.key = api_key.key)), ())

/-! ### Helper lemmas -/

/-- The `foldl` underlying `pyMinByInterval` returns the initial element or a
list element, never exceeds the initial key, and is a lower bound of the
list's keys. -/
lemma foldl_min_interval_spec (l : List Session) (init : Session) :
    (l.foldl (fun best x => if x.interval < best.interval then x else best) init = init ∨
      l.foldl (fun best x => if x.interval < best.interval then x else best) init ∈ l) ∧
    (l.foldl (fun best x => if x.interval < best.interval then x else best) init).interval
      ≤ init.interval ∧
    ∀ x ∈ l,
      (l.foldl (fun best x => if x.interval < best.interval then x else best) init).interval
        ≤ x.interval := by
  induction l generalizing init with
  | nil => simp
  | cons y ys ih =>
    simp only [List.foldl_cons]
    obtain ⟨hmem, hle, hall⟩ := ih (if y.interval < init.interval then y else init)
    refine ⟨?_, ?_, ?_⟩
    · rcases hmem with h | h
      · rw [h]
        by_cases hy : y.interval < init.interval
        · simp [hy]
        · simp [hy]
      · exact Or.inr (List.mem_cons_of_mem _ h)
    · refine le_trans hle ?_
      by_cases hy : y.interval < init.interval
      · simp [hy]; omega
      · simp [hy]
    · intro x hx
      rcases List.mem_cons.mp hx with rfl | hx
      · refine le_trans hle ?_
        by_cases hy : x.interval < init.interval
        · simp [hy]
        · simp [hy]; omega
      · exact hall x hx

/-- When `pyMinByInterval` succeeds, its result is an element of the list with
minimal interval. -/
lemma pyMinByInterval_spec (l : List Session) (s : Session)
    (h : pyMinByInterval l = .ok s) :
    s ∈ l ∧ ∀ x ∈ l, s.interval ≤ x.interval := by
  cases l with
  | nil => simp [pyMinByInterval] at h
  | cons y ys =>
    simp only [pyMinByInterval, Except.ok.injEq] at h
    subst h
    obtain ⟨hmem, hle, hall⟩ := foldl_min_interval_spec ys y
    refine ⟨?_, ?_⟩
    · rcases hmem with h | h
      · rw [h]; exact List.mem_cons_self _ _
      · exact List.mem_cons_of_mem _ h
    · intro x hx
      rcases List.mem_cons.mp hx with rfl | hx
      · exact hle
      · exact hall x hx

/-- `pyMinByInterval` succeeds on every non-empty list. -/
lemma pyMinByInterval_ne_nil (l : List Session) (h : l ≠ []) :
    ∃ s, pyMinByInterval l = .ok s := by
  cases l with
  | nil => exact absurd rfl h
  | cons y ys => exact ⟨_, rfl⟩

/-- Looking up a freshly appended action by its id finds it, provided no
earlier record carries the same id. -/
lemma getActionById_append_last (l : List Action) (a : Action)
    (h : ∀ x ∈ l, x.action_id ≠ a.action_id) :
    getActionById (l ++ [a]) a.action_id = some a := by
  induction l with
  | nil => simp [getActionById]
  | cons x xs ih =>
    have hx : x.action_id ≠ a.action_id := h x (List.mem_cons_self _ _)
    simp only [List.cons_append, getActionById]
    rw [if_neg hx]
    exact ih (fun y hy => h y (List.mem_cons_of_mem _ hy))

/-- `get_action` on a freshly appended action's id returns that action,
provided no earlier record carries the same id. -/
lemma get_action_append_last (l : List Action) (a : Action)
    (h : ∀ x ∈ l, x.action_id ≠ a.action_id) :
    get_action (l ++ [a]) a.action_id = .ok a := by
  unfold get_action
  rw [getActionById_append_last _ _ h]

/-! ### Theorems for the claims -/

/-- C4: a `create_action` request whose `target_name` matches no stored target
fails with `CannotBindAction`; the error return means no action record is
persisted. -/
theorem create_action_missing_target
    (parse : String → Except ApiError ParsedAction) (ctx : Option AuthCtx)
    (now : Nat) (fresh_uuid : String) (params : CreateActionParams)
    (targets : List Target) (actions : List Action)
    (h : getTargetByName targets params.target_name = none) :
    create_action parse ctx now fresh_uuid params targets actions
      = .error (.cannotBindAction params.target_name) := by
  simp [create_action, h]

/-- Witness for C4 at a concrete input: no target named `ghost` exists. -/
theorem create_action_missing_target_witness :
    create_action (fun _ => .ok ⟨"exec"⟩) none 0 "u1"
        { target_name := "ghost", action_string := "exec ls" } [] []
      = .error (.cannotBindAction "ghost") :=
  create_action_missing_target _ _ _ _ _ _ _ rfl

/-- C2: with `quick = true` and an existing target whose only session is
inactive, `create_action` raises the raw `ValueError` coming from Python
`min` on an empty sequence — not `NoActiveSession` — and the error return
means no action record is persisted. -/
theorem create_action_quick_no_active_valueerror :
    create_action (fun _ => .ok ⟨"exec"⟩) none 0 "u1"
        { target_name := "t1", action_string := "exec ls", quick := true }
        [{ name := "t1",
           sessions := [{ session_id := "s1", status := "inactive", interval := 5 }] }] []
      = .error (.valueError "min arg is an empty sequence") ∧
    create_action (fun _ => .ok ⟨"exec"⟩) none 0 "u1"
        { target_name := "t1", action_string := "exec ls", quick := true }
        [{ name := "t1",
           sessions := [{ session_id := "s1", status := "inactive", interval := 5 }] }] []
      ≠ .error .noActiveSession := by
  refine ⟨rfl, ?_⟩
  intro hcontra
  rw [show create_action (fun _ => .ok ⟨"exec"⟩) none 0 "u1"
        { target_name := "t1", action_string := "exec ls", quick := true }
        [{ name := "t1",
           sessions := [{ session_id := "s1", status := "inactive", interval := 5 }] }] []
      = .error (.valueError "min arg is an empty sequence") from rfl] at hcontra
  simp at hcontra

/-- C10: `create_user` always stores `administrator = False` and the hash of
the supplied plaintext; there is no input that yields an administrator
record. -/
theorem create_user_never_admin (hash : String → String)
    (username password : String) (store : List User)
    (hfresh : ∀ u ∈ store, u.username ≠ username) :
    create_user hash username password store
      = .ok (store ++ [{ username := username, password := hash password,
                         administrator := false }], ()) := by
  unfold create_user
  rw [if_neg]
  push_neg
  exact hfresh

/-- Witness for C10 at a concrete input: the stored record is non-admin with
the hashed password. -/
theorem create_user_never_admin_witness :
    create_user (fun s => "#" ++ s) "bob" "pw" []
      = .ok ([{ username := "bob", password := "#" ++ "pw",
                administrator := false }], ()) :=
  create_user_never_admin (fun s => "#" ++ s) "bob" "pw" [] (by simp)

/-- C7 counterexample: an auth context with `administrator = true` whose
resolved target user is itself an administrator is NOT granted the
no-current-password override — with a wrong `current_password` the call fails
with `AuthenticationFailed` instead of succeeding, refuting the claim for
"any user". -/
theorem update_user_password_admin_counterexample :
    (AuthCtx.mk ⟨"root", "#" ++ "old", true⟩ ["*"] true).administrator = true ∧
    update_user_password (fun s => "#" ++ s)
        ⟨⟨"root", "#" ++ "old", true⟩, ["*"], true⟩ "wrong" "new"
      = .error .authenticationFailed := by
  exact ⟨rfl, rfl⟩

/-- C7 amended: the administrator override applies exactly when the resolved
target user is not itself an administrator; then the password becomes the
hash of `new_password` with no use of `current_password`, and the call
succeeds. -/
theorem update_user_password_admin_override (hash : String → String)
    (ctx : AuthCtx) (current_password new_password : String)
    (hadmin : ctx.administrator = true)
    (htarget : ctx.user.administrator = false) :
    update_user_password hash ctx current_password new_password
      = .ok { ctx.user with password := hash new_password } := by
  simp [update_user_password, hadmin, htarget]

/-- Witness for the amended C7 at a concrete input: an administrator resets a
non-admin user's password without supplying the current one. -/
theorem update_user_password_admin_override_witness :
    update_user_password (fun s => "#" ++ s)
        ⟨⟨"bob", "#" ++ "old", false⟩, ["*"], true⟩ "ignored" "new"
      = .ok { username := "bob", password := "#" ++ "new",
              administrator := false } :=
  update_user_password_admin_override (fun s => "#" ++ s)
    ⟨⟨"bob", "#" ++ "old", false⟩, ["*"], true⟩ "ignored" "new" rfl rfl

/-- C1: `create_api_key` with an omitted or empty `allowed_api_calls` grants
the issuer's full effective set; with a non-empty request it succeeds exactly
when every requested operation is in the issuer's effective set or the issuer
holds the wildcard, and otherwise fails with `PermissionDenied`. -/
theorem create_api_key_delegation
    (argon2 : String → String → String) (b64 : String → String) (salt : String)
    (ctx : AuthCtx) (allowed_api_calls : Option (List String))
    (original_key : String) (store : List APIKey)
    (hfresh : ∀ k ∈ store, k.key ≠ salt ++ "$" ++ b64 (argon2 original_key salt)) :
    ((allowed_api_calls = none ∨ allowed_api_calls = some []) →
      create_api_key argon2 b64 salt ctx allowed_api_calls original_key store
        = .ok (store ++ [{ key := salt ++ "$" ++ b64 (argon2 original_key salt),
                           owner := ctx.user.username,
                           allowed_api_calls := ctx.allowed_methods }], original_key)) ∧
    (∀ l : List String, allowed_api_calls = some l → l ≠ [] →
      (((∀ m ∈ l, m ∈ ctx.allowed_methods) ∨ "*" ∈ ctx.allowed_methods) →
        create_api_key argon2 b64 salt ctx allowed_api_calls original_key store
          = .ok (store ++ [{ key := salt ++ "$" ++ b64 (argon2 original_key salt),
                             owner := ctx.user.username,
                             allowed_api_calls := l }], original_key)) ∧
      (¬ ((∀ m ∈ l, m ∈ ctx.allowed_methods) ∨ "*" ∈ ctx.allowed_methods) →
        create_api_key argon2 b64 salt ctx allowed_api_calls original_key store
          = .error (.permissionDenied
              "Cannot create API key with more permissions than key owner."))) := by
  have hfresh' : ¬ ∃ k ∈ store, k.key = salt ++ "$" ++ b64 (argon2 original_key salt) := by
    push_neg
    exact hfresh
  constructor
  · intro hempty
    have hreq : allowed_api_calls.getD [] = [] := by
      rcases hempty with rfl | rfl <;> rfl
    simp only [create_api_key, hreq]
    rw [if_pos trivial, if_neg hfresh']
  · intro l hl hlne
    subst hl
    constructor
    · intro hok
      simp only [create_api_key, Option.getD_some]
      rw [if_neg hlne]
      by_cases hvio : ∃ m ∈ l, m ∉ ctx.allowed_methods
      · have hw : "*" ∈ ctx.allowed_methods := by
          rcases hok with hall | hw
          · exact absurd (hall _ hvio.choose_spec.1) hvio.choose_spec.2
          · exact hw
        rw [if_pos hvio, if_neg (by simpa using hw), if_neg hfresh']
      · rw [if_neg hvio, if_neg hfresh']
    · intro hfail
      push_neg at hfail
      obtain ⟨hvio, hnw⟩ := hfail
      simp only [create_api_key, Option.getD_some]
      rw [if_neg hlne, if_pos hvio, if_pos hnw]

/-- Witness for C1 at the spec's concrete example: requesting `get_action`
from an issuer whose effective set is `get_action, list_actions` succeeds and
the stored key carries exactly the requested set. -/
theorem create_api_key_delegation_witness :
    create_api_key (fun p s => p ++ s) (fun s => s) "salt"
        ⟨⟨"alice", "h", false⟩, ["get_action", "list_actions"], false⟩
        (some ["get_action"]) "raw" []
      = .ok ([{ key := "salt" ++ "$" ++ ("raw" ++ "salt"), owner := "alice",
                allowed_api_calls := ["get_action"] }], "raw") := by
  have h := (create_api_key_delegation (fun p s => p ++ s) (fun s => s) "salt"
      ⟨⟨"alice", "h", false⟩, ["get_action", "list_actions"], false⟩
      (some ["get_action"]) "raw" [] (by simp)).2 ["get_action"] rfl (by simp)
  simpa using h.1 (Or.inl (by simp))

/-- C8: every successful `create_api_key` returns the raw secret as its
payload, while the record it appends to the store carries in its `key` field
only the salted hash `API_KEY_SALT + "$" + b64(argon2(secret, salt))` — so
whenever that hash string differs from the secret, the raw secret is not
stored. -/
theorem create_api_key_stores_hash
    (argon2 : String → String → String) (b64 : String → String) (salt : String)
    (ctx : AuthCtx) (allowed_api_calls : Option (List String))
    (original_key : String) (store st' : List APIKey) (secret : String)
    (h : create_api_key argon2 b64 salt ctx allowed_api_calls original_key store
          = .ok (st', secret)) :
    secret = original_key ∧
    ∃ record : APIKey,
      st' = store ++ [record] ∧
      record.key = salt ++ "$" ++ b64 (argon2 original_key salt) ∧
      record.owner = ctx.user.username ∧
      (salt ++ "$" ++ b64 (argon2 original_key salt) ≠ original_key →
        record.key ≠ original_key) := by
  simp only [create_api_key] at h
  split at h
  · split at h
    · exact absurd h (by simp)
    · simp only [Except.ok.injEq, Prod.mk.injEq] at h
      obtain ⟨h1, h2⟩ := h
      exact ⟨h2.symm, _, h1.symm, rfl, rfl, fun hne => hne⟩
  · split at h
    · split at h
      · exact absurd h (by simp)
      · split at h
        · exact absurd h (by simp)
        · simp only [Except.ok.injEq, Prod.mk.injEq] at h
          obtain ⟨h1, h2⟩ := h
          exact ⟨h2.symm, _, h1.symm, rfl, rfl, fun hne => hne⟩
    · split at h
      · exact absurd h (by simp)
      · simp only [Except.ok.injEq, Prod.mk.injEq] at h
        obtain ⟨h1, h2⟩ := h
        exact ⟨h2.symm, _, h1.symm, rfl, rfl, fun hne => hne⟩

/-- Witness for C8 at a concrete input: an omitted `allowed_api_calls` request
succeeds, returns the raw secret `rawk`, and stores only the salted hash. -/
theorem create_api_key_stores_hash_witness :
    "rawk" = "rawk" ∧
    ∃ record : APIKey,
      [({ key := "s" ++ "$" ++ ("rawk" ++ "s"), owner := "alice",
          allowed_api_calls := ["get_action"] } : APIKey)] = [] ++ [record] ∧
      record.key = "s" ++ "$" ++ ("rawk" ++ "s") ∧
      record.owner = "alice" ∧
      ("s" ++ "$" ++ ("rawk" ++ "s") ≠ "rawk" → record.key ≠ "rawk") := by
  have h := create_api_key_stores_hash (fun p s => p ++ s) (fun s => s) "s"
      ⟨⟨"alice", "h", false⟩, ["get_action"], false⟩ none "rawk" []
      [({ key := "s" ++ "$" ++ ("rawk" ++ "s"), owner := "alice",
          allowed_api_calls := ["get_action"] } : APIKey)] "rawk" rfl
  exact h

/-- C9: `revoke_api_key` on an existing key: a caller that is neither the
owner nor an administrator gets `PermissionDenied` (so the store is left
unchanged); the owner or an administrator gets success with the key record
removed and every other record kept. -/
theorem revoke_api_key_spec (stored_of : String → String) (ctx : AuthCtx)
    (raw : String) (store : List APIKey) (api_key : APIKey)
    (hfind : get_key stored_of store raw = some api_key) :
    (api_key.owner ≠ ctx.user.username ∧ ctx.administrator = false →
      revoke_api_key stored_of ctx raw store
        = .error (.permissionDenied
            "Cannot revoke an API key you do not own.        Please authenticate as the owner of the key to revoke it.")) ∧
    (api_key.owner = ctx.user.username ∨ ctx.administrator = true →
      ∃ st', revoke_api_key stored_of ctx raw store = .ok (st', ()) ∧
        (∀ k ∈ st', k.key ≠ api_key.key) ∧
        (∀ k ∈ store, k.key ≠ api_key.key → k ∈ st')) := by
  constructor
  · intro ⟨h1, h2⟩
    simp [revoke_api_key, hfind, h1, h2]
  · intro hok
    refine ⟨store.filter (fun k => decide (¬ k.key = api_key.key)), ?_, ?_, ?_⟩
    · simp only [revoke_api_key, hfind]
      rw [if_neg]
      push_neg
      intro h1
      rcases hok with h | h
      · exact absurd h h1
      · simp [h]
    · intro k hk
      simp only [List.mem_filter, decide_not, Bool.not_eq_true', decide_eq_false_iff_not] at hk
      exact hk.2
    · intro k hk hne
      simp only [List.mem_filter, decide_not, Bool.not_eq_true', decide_eq_false_iff_not]
      exact ⟨hk, hne⟩

/-- Witness for C9 at a concrete input: the owner revokes their own key and
the store is emptied. -/
theorem revoke_api_key_spec_witness :
    ∃ st', revoke_api_key (fun r => "#" ++ r)
        ⟨⟨"alice", "p", false⟩, [], false⟩ "raw"
        [({ key := "#" ++ "raw", owner := "alice", allowed_api_calls := [] } : APIKey)]
      = .ok (st', ()) ∧
      (∀ k ∈ st',
        k.key ≠ ({ key := "#" ++ "raw", owner := "alice",
                   allowed_api_calls := [] } : APIKey).key) ∧
      (∀ k ∈ [({ key := "#" ++ "raw", owner := "alice",
                 allowed_api_calls := [] } : APIKey)],
        k.key ≠ ({ key := "#" ++ "raw", owner := "alice",
                   allowed_api_calls := [] } : APIKey).key → k ∈ st') := by
  exact (revoke_api_key_spec (fun r => "#" ++ r)
      ⟨⟨"alice", "p", false⟩, [], false⟩ "raw"
      [({ key := "#" ++ "raw", owner := "alice", allowed_api_calls := [] } : APIKey)]
      ({ key := "#" ++ "raw", owner := "alice", allowed_api_calls := [] } : APIKey)
      rfl).2 (Or.inl rfl)

/-- C6: every `create_role` request that supplies `name` and
`allowed_api_calls` fails with `TypeError` before any role is built, because
the source evaluates `params.get(users)` with the list value `users = []` as
the dictionary key, and a list is unhashable; no Role is ever persisted. -/
theorem create_role_always_typeerror
    (resolveUser : String → Except ApiError String)
    (params : List (String × PyVal)) (store : List Role)
    (nameVal callsVal : PyVal)
    (hname : pyIndex params "name" = .ok nameVal)
    (hcalls : pyIndex params "allowed_api_calls" = .ok callsVal) :
    create_role resolveUser params store
      = .error (.typeError "unhashable type: list") := by
  simp [create_role, hname, hcalls, pyGet]

/-- Witness for C6 at the failing input: a well-formed request naming the
role `operators` with one permission raises `TypeError`. -/
theorem create_role_always_typeerror_witness :
    create_role (fun u => .ok u)
        [("name", .str "operators"), ("allowed_api_calls", .strList ["get_action"])] []
      = .error (.typeError "unhashable type: list") :=
  create_role_always_typeerror (fun u => .ok u)
    [("name", .str "operators"), ("allowed_api_calls", .strList ["get_action"])] []
    (.str "operators") (.strList ["get_action"]) rfl rfl

/-- C3: with `quick = true` and at least one active session on the target,
`create_action` binds the created action to a session that is active and has
minimal interval among the target's active sessions, and the result is
independent of any `bound_session_id` supplied in the request. -/
theorem create_action_quick_binds_fastest
    (parse : String → Except ApiError ParsedAction) (ctx : Option AuthCtx)
    (now : Nat) (fresh_uuid : String) (params : CreateActionParams)
    (targets : List Target) (actions : List Action) (target : Target)
    (parsed : ParsedAction)
    (htarget : getTargetByName targets params.target_name = some target)
    (hparse : parse params.action_string = .ok parsed)
    (hquick : params.quick = true)
    (hactive : target.sessions.filter (fun s => decide (s.status = "active")) ≠ [])
    (hfresh : ∀ a ∈ actions, a.action_id ≠ params.action_id.getD fresh_uuid) :
    ∃ s : Session,
      s ∈ target.sessions ∧ s.status = "active" ∧
      (∀ s' ∈ target.sessions, s'.status = "active" → s.interval ≤ s'.interval) ∧
      create_action parse ctx now fresh_uuid params targets actions
        = .ok (actions ++
            [{ action_id := params.action_id.getD fresh_uuid,
               target_name := params.target_name,
               action_string := params.action_string,
               action_type := parsed.action_type,
               bound_session_id := some s.session_id,
               queue_time := now,
               owner := match ctx with
                 | some c => c.user.username
                 | none => "No owner" }], params.action_id.getD fresh_uuid) ∧
      ∀ alt : Option String,
        create_action parse ctx now fresh_uuid
            { params with bound_session_id := alt } targets actions
          = create_action parse ctx now fresh_uuid params targets actions := by
  obtain ⟨smin, hmin⟩ := pyMinByInterval_ne_nil _ hactive
  obtain ⟨hmem, hall⟩ := pyMinByInterval_spec _ _ hmin
  rw [List.mem_filter] at hmem
  have hstat : smin.status = "active" := by simpa using hmem.2
  have hdup : ¬ ∃ a ∈ actions, a.action_id = params.action_id.getD fresh_uuid := by
    push_neg
    exact hfresh
  refine ⟨smin, hmem.1, hstat, ?_, ?_, ?_⟩
  · intro s' hs' hs'stat
    exact hall s' (List.mem_filter.mpr ⟨hs', by simpa using hs'stat⟩)
  · simp only [create_action, htarget, hparse, hquick, if_true, hmin]
    rw [if_neg hdup]
  · intro alt
    simp only [create_action, htarget, hparse, hquick, if_true, hmin]

/-- Witness for C3 at the spec's concrete example: among sessions with
intervals 5, 2, 8 and statuses active, active, inactive, the interval-2
session is bound, overriding the request's own `bound_session_id`. -/
theorem create_action_quick_binds_fastest_witness :
    ∃ s : Session,
      s ∈ [⟨"s1", "active", 5⟩, ⟨"s2", "active", 2⟩, ⟨"s3", "inactive", 8⟩] ∧
      s.status = "active" ∧
      (∀ s' ∈ ([⟨"s1", "active", 5⟩, ⟨"s2", "active", 2⟩,
                ⟨"s3", "inactive", 8⟩] : List Session),
        s'.status = "active" → s.interval ≤ s'.interval) ∧
      create_action (fun _ => .ok ⟨"exec"⟩) none 0 "u1"
          { target_name := "t1", action_string := "exec ls",
            bound_session_id := some "s3", action_id := some "a1", quick := true }
          [{ name := "t1",
             sessions := [⟨"s1", "active", 5⟩, ⟨"s2", "active", 2⟩,
                          ⟨"s3", "inactive", 8⟩] }] []
        = .ok ([{ action_id := "a1", target_name := "t1",
                  action_string := "exec ls", action_type := "exec",
                  bound_session_id := some s.session_id, queue_time := 0,
                  owner := "No owner" }], "a1") ∧
      ∀ alt : Option String,
        create_action (fun _ => .ok ⟨"exec"⟩) none 0 "u1"
            { target_name := "t1", action_string := "exec ls",
              bound_session_id := alt, action_id := some "a1", quick := true }
            [{ name := "t1",
               sessions := [⟨"s1", "active", 5⟩, ⟨"s2", "active", 2⟩,
                            ⟨"s3", "inactive", 8⟩] }] []
          = create_action (fun _ => .ok ⟨"exec"⟩) none 0 "u1"
              { target_name := "t1", action_string := "exec ls",
                bound_session_id := some "s3", action_id := some "a1",
                quick := true }
              [{ name := "t1",
                 sessions := [⟨"s1", "active", 5⟩, ⟨"s2", "active", 2⟩,
                              ⟨"s3", "inactive", 8⟩] }] [] :=
  create_action_quick_binds_fastest (fun _ => .ok ⟨"exec"⟩) none 0 "u1"
    { target_name := "t1", action_string := "exec ls",
      bound_session_id := some "s3", action_id := some "a1", quick := true }
    [{ name := "t1",
       sessions := [⟨"s1", "active", 5⟩, ⟨"s2", "active", 2⟩,
                    ⟨"s3", "inactive", 8⟩] }] []
    { name := "t1",
      sessions := [⟨"s1", "active", 5⟩, ⟨"s2", "active", 2⟩,
                   ⟨"s3", "inactive", 8⟩] }
    ⟨"exec"⟩ rfl rfl rfl (by simp) (by simp)

/-- C5: whenever `create_action` succeeds, `get_action` on the returned
`action_id` finds an action whose `target_name` and `action_string` equal the
request's and whose derived status is `queued`. -/
theorem create_then_get_action
    (parse : String → Except ApiError ParsedAction) (ctx : Option AuthCtx)
    (now : Nat) (fresh_uuid : String) (params : CreateActionParams)
    (targets : List Target) (actions acts' : List Action) (aid : String)
    (h : create_action parse ctx now fresh_uuid params targets actions
          = .ok (acts', aid)) :
    ∃ a : Action,
      get_action acts' aid = .ok a ∧
      a.target_name = params.target_name ∧
      a.action_string = params.action_string ∧
      a.status = .queued := by
  simp only [create_action] at h
  split at h
  · exact absurd h (by simp)
  · split at h
    · exact absurd h (by simp)
    · split at h
      · exact absurd h (by simp)
      · split at h
        · exact absurd h (by simp)
        · rename_i hdup
          simp only [Except.ok.injEq, Prod.mk.injEq] at h
          obtain ⟨h1, h2⟩ := h
          subst h1
          subst h2
          push_neg at hdup
          exact ⟨_, get_action_append_last actions _ hdup, rfl, rfl, rfl⟩

/-- Witness for C5 at a concrete input: creating action `a1` on target `t1`
and fetching it back returns the queued record with matching fields. -/
theorem create_then_get_action_witness :
    ∃ a : Action,
      get_action [⟨"a1", "t1", "exec ls", "exec", none, 0, "No owner",
                   false, false⟩] "a1" = .ok a ∧
      a.target_name = "t1" ∧
      a.action_string = "exec ls" ∧
      a.status = .queued :=
  create_then_get_action (fun _ => .ok ⟨"exec"⟩) none 0 "u1"
    { target_name := "t1", action_string := "exec ls", action_id := some "a1" }
    [{ name := "t1", sessions := [] }] []
    [⟨"a1", "t1", "exec ls", "exec", none, 0, "No owner", false, false⟩] "a1" rfl

end Arsenal
